import Mathlib

/-!
Formal model of the ucritair-log-analyzer analysis core.

Conventions of the embedding:
* Python floats are modelled by rational numbers (exact arithmetic).
* A pandas cell that may be NaN or missing is an Option value; none is the
  missing/NaN cell.
* A pandas Series is a plain list (value lists and timestamp lists kept in
  sync); timestamps are rational numbers of epoch seconds.
* Transcendental kernels of numpy and scipy (log, exp, polyfit, curve_fit)
  enter as function parameters, since the properties proved here do not
  depend on their numeric content.
-/

/-! ## AQI engine: app/analysis/aqi.py -/

/-- One breakpoint row of a StandardPack: (conc_low, conc_high, index_low,
index_high) as in aqi.py. -/
structure Breakpoint where
  conc_low : ℚ
  conc_high : ℚ
  index_low : ℚ
  index_high : ℚ
deriving DecidableEq, Repr

/-- Source function round_half_up: floor(value + 0.5).  Rat.floor is the
kernel-computable floor, equal to the mathematical one by Rat.floor_def'. -/
def round_half_up (value : ℚ) : ℚ := ((value + 1/2).floor : ℤ)

/-- Truncation of a float toward zero, the effect of float(int(value)). -/
def trunc_toward_zero (value : ℚ) : ℚ :=
  if 0 ≤ value then ((value.floor : ℤ) : ℚ) else ((-(-value).floor : ℤ) : ℚ)

/-- Source function apply_rounding(value, mode). -/
def apply_rounding (value : ℚ) (mode : String) : ℚ :=
  if mode = "round" then round_half_up value
  else if mode = "floor" then trunc_toward_zero value
  else if mode = "truncate" then trunc_toward_zero value
  else value

/-- Stable insertion of a segment into a list sorted by conc_low; together
with sortSegments this reproduces the stable Python sorted(..., key=row[0]). -/
def insertSegment (s : Breakpoint) : List Breakpoint → List Breakpoint
  | [] => [s]
  | t :: rest =>
      if s.conc_low ≤ t.conc_low then s :: t :: rest else t :: insertSegment s rest

/-- Stable sort of the breakpoint rows by conc_low, as in compute_subindex. -/
def sortSegments : List Breakpoint → List Breakpoint
  | [] => []
  | s :: rest => insertSegment s (sortSegments rest)

/-- One pass of the segment loop of compute_subindex: cells matching the
segment mask are overwritten with the rounded interpolation, others keep the
accumulated value.  extrapLast is extrapolate_upper combined with the test
that this segment is the last of the ordered list. -/
def applySegment (mode : String) (extrapLast : Bool) (seg : Breakpoint)
    (series : List (Option ℚ)) (acc : List (Option ℚ)) : List (Option ℚ) :=
  List.zipWith
    (fun v? cur =>
      match v? with
      | none => cur
      | some v =>
          if (if extrapLast then seg.conc_low ≤ v
              else seg.conc_low ≤ v ∧ v ≤ seg.conc_high) then
            some (apply_rounding
              ((seg.index_high - seg.index_low) / (seg.conc_high - seg.conc_low)
                * (v - seg.conc_low) + seg.index_low) mode)
          else cur)
    series acc

/-- Source function compute_subindex: the result series starts all missing
(NaN) and the segments, ordered ascending by conc_low, each overwrite the
cells their mask selects. -/
def compute_subindex (series : List (Option ℚ)) (breakpoints : List Breakpoint)
    (mode : String) (extrapolate_upper : Bool) : List (Option ℚ) :=
  (List.enum (sortSegments breakpoints)).foldl
    (fun acc p =>
      applySegment mode
        (extrapolate_upper && decide (p.1 + 1 = (sortSegments breakpoints).length))
        p.2 series acc)
    (series.map fun _ => none)

/-- Source function classify_aqi: the output starts all missing and each
category band in list order overwrites the cells inside its inclusive
low..high range with its name. -/
def classify_aqi (values : List (Option ℚ)) (categories : List (ℚ × ℚ × String)) :
    List (Option String) :=
  categories.foldl
    (fun out cat =>
      List.zipWith
        (fun v? cur =>
          match v? with
          | none => cur
          | some v => if cat.1 ≤ v ∧ v ≤ cat.2.1 then some cat.2.2 else cur)
        values out)
    (values.map fun _ => none)

/-- Evaluation of the segment loop on a single cell value. -/
def subindexOne (ordered : List Breakpoint) (mode : String)
    (extrapolate_upper : Bool) (v? : Option ℚ) : Option ℚ :=
  (List.enum ordered).foldl
    (fun cur p =>
      match v? with
      | none => cur
      | some v =>
          if (if extrapolate_upper && decide (p.1 + 1 = ordered.length) then
                p.2.conc_low ≤ v
              else p.2.conc_low ≤ v ∧ v ≤ p.2.conc_high) then
            some (apply_rounding
              ((p.2.index_high - p.2.index_low) / (p.2.conc_high - p.2.conc_low)
                * (v - p.2.conc_low) + p.2.index_low) mode)
          else cur)
    none

/-- Evaluation of the category loop on a single cell value: the last band
containing the value wins. -/
def classifyOne (categories : List (ℚ × ℚ × String)) (v? : Option ℚ) :
    Option String :=
  categories.foldl
    (fun cur cat =>
      match v? with
      | none => cur
      | some v => if cat.1 ≤ v ∧ v ≤ cat.2.1 then some cat.2.2 else cur)
    none

/-- Name of the last category band, in list order, whose inclusive range
contains the value; none when no band contains it.  This is the spec-side
description the amended claim C2 uses. -/
def lastMatchName (categories : List (ℚ × ℚ × String)) (v : ℚ) : Option String :=
  (categories.reverse.find? (fun cat => decide (cat.1 ≤ v ∧ v ≤ cat.2.1))).map
    (fun cat => cat.2.2)

theorem rat_floor_eq_floor (q : ℚ) : (q.floor : ℤ) = ⌊q⌋ := by
  rw [Rat.floor_def, Rat.floor_def']

theorem zipWith_map_same {α β : Type} (f : α → β → β) (g : α → β) (l : List α) :
    List.zipWith f l (l.map g) = l.map (fun a => f a (g a)) := by
  induction l with
  | nil => rfl
  | cons a t ih => simp [List.zipWith, ih]

theorem compute_subindex_map (series : List (Option ℚ))
    (breakpoints : List Breakpoint) (mode : String) (extrapolate_upper : Bool) :
    compute_subindex series breakpoints mode extrapolate_upper =
      series.map (subindexOne (sortSegments breakpoints) mode extrapolate_upper) := by
  unfold compute_subindex subindexOne
  generalize sortSegments breakpoints = ordered
  generalize List.enum ordered = pairs
  have key : ∀ (ps : List (ℕ × Breakpoint)) (g : Option ℚ → Option ℚ),
      ps.foldl
        (fun acc p =>
          applySegment mode (extrapolate_upper && decide (p.1 + 1 = ordered.length))
            p.2 series acc)
        (series.map g) =
      series.map
        (fun v? => ps.foldl
          (fun cur p =>
            match v? with
            | none => cur
            | some v =>
                if (if extrapolate_upper && decide (p.1 + 1 = ordered.length) then
                      p.2.conc_low ≤ v
                    else p.2.conc_low ≤ v ∧ v ≤ p.2.conc_high) then
                  some (apply_rounding
                    ((p.2.index_high - p.2.index_low) /
                        (p.2.conc_high - p.2.conc_low)
                      * (v - p.2.conc_low) + p.2.index_low) mode)
                else cur)
          (g v?)) := by
    intro ps
    induction ps with
    | nil => intro g; rfl
    | cons p rest ih =>
        intro g
        simp only [List.foldl_cons]
        rw [applySegment, zipWith_map_same, ih]
  exact key pairs (fun _ => none)

theorem classify_aqi_map (values : List (Option ℚ))
    (categories : List (ℚ × ℚ × String)) :
    classify_aqi values categories = values.map (classifyOne categories) := by
  unfold classify_aqi classifyOne
  have key : ∀ (cs : List (ℚ × ℚ × String)) (g : Option ℚ → Option String),
      cs.foldl
        (fun out cat =>
          List.zipWith
            (fun v? cur =>
              match v? with
              | none => cur
              | some v => if cat.1 ≤ v ∧ v ≤ cat.2.1 then some cat.2.2 else cur)
            values out)
        (values.map g) =
      values.map
        (fun v? => cs.foldl
          (fun cur cat =>
            match v? with
            | none => cur
            | some v => if cat.1 ≤ v ∧ v ≤ cat.2.1 then some cat.2.2 else cur)
          (g v?)) := by
    intro cs
    induction cs with
    | nil => intro g; rfl
    | cons c rest ih =>
        intro g
        simp only [List.foldl_cons]
        rw [zipWith_map_same, ih]
  exact key categories (fun _ => none)

theorem foldl_overwrite_eq_last_find {α : Type} (P : α → Bool) (name : α → String) :
    ∀ (l : List α) (init : Option String),
      l.foldl (fun cur c => if P c then some (name c) else cur) init =
        match l.reverse.find? P with
        | some c => some (name c)
        | none => init := by
  intro l
  induction l with
  | nil => intro init; rfl
  | cons c rest ih =>
      intro init
      simp only [List.foldl_cons, List.reverse_cons, List.find?_append]
      rw [ih]
      cases hfind : rest.reverse.find? P with
      | some d => simp [hfind, Option.orElse]
      | none =>
          cases hP : P c <;> simp [hfind, hP, List.find?, Option.orElse]

theorem classifyOne_none (categories : List (ℚ × ℚ × String)) :
    classifyOne categories none = none := by
  unfold classifyOne
  induction categories with
  | nil => rfl
  | cons c rest ih => simpa using ih

theorem classifyOne_some (categories : List (ℚ × ℚ × String)) (v : ℚ) :
    classifyOne categories (some v) = lastMatchName categories v := by
  unfold classifyOne lastMatchName
  have heq : (fun (cur : Option String) (cat : ℚ × ℚ × String) =>
      match some v with
      | none => cur
      | some w => if cat.1 ≤ w ∧ w ≤ cat.2.1 then some cat.2.2 else cur)
      = (fun cur cat =>
          if decide (cat.1 ≤ v ∧ v ≤ cat.2.1) = true then some cat.2.2 else cur) := by
    funext cur cat
    simp
  rw [heq, foldl_overwrite_eq_last_find (fun cat => decide (cat.1 ≤ v ∧ v ≤ cat.2.1))
       (fun cat => cat.2.2) categories none]
  cases h : categories.reverse.find? (fun cat => decide (cat.1 ≤ v ∧ v ≤ cat.2.1)) <;>
    simp [h]

/-- C2 (corrected, counterexample): with the two overlapping bands
Good = [0,50] and Moderate = [50,100], the shared value 50 is classified as
"Moderate" (the later band), not "Good" (the earlier band), refuting the
first-inclusive-match-wins reading of the claim. -/
theorem classify_aqi_overlap_counterexample :
    classify_aqi [some 50] [(0, 50, "Good"), (50, 100, "Moderate")]
        = [some "Moderate"] ∧
      classify_aqi [some 50] [(0, 50, "Good"), (50, 100, "Moderate")]
        ≠ [some "Good"] := by
  have h : classify_aqi [some 50] [(0, 50, "Good"), (50, 100, "Moderate")]
      = [some "Moderate"] := by
    rw [classify_aqi_map]
    simp [classifyOne_some, lastMatchName, List.find?]
    norm_num
  exact ⟨h, by rw [h]; intro hbad; simpa using hbad⟩

/-- C2 (amended): classify_aqi assigns each present value the name of the
LAST band, in list order, whose inclusive low..high range contains the
value — when two bands both contain a value, the later band wins; missing
values stay missing. -/
theorem classify_aqi_last_match_wins (values : List (Option ℚ))
    (categories : List (ℚ × ℚ × String)) :
    classify_aqi values categories =
      values.map (fun v? => v?.bind (fun v => lastMatchName categories v)) := by
  rw [classify_aqi_map]
  apply List.map_congr_left
  intro v? _
  cases v? with
  | none => simpa using classifyOne_none categories
  | some v => simpa using classifyOne_some categories v

theorem sortSegments_pair (s1 s2 : Breakpoint) (h : s1.conc_low ≤ s2.conc_low) :
    sortSegments [s1, s2] = [s1, s2] := by
  simp [sortSegments, insertSegment, h]

/-- C1 (corrected, counterexample): for the contiguous pack with segments
(0,10,0,50) and (10,20,60,100), the shared boundary concentration 10 maps to
60 — the interpolation of the UPPER segment at its conc_low — and not to 50,
the index_high of the lower segment, refuting lower-segment-wins. -/
theorem compute_subindex_boundary_counterexample :
    compute_subindex [some 10]
        [⟨0, 10, 0, 50⟩, ⟨10, 20, 60, 100⟩] "round" false = [some 60] ∧
      compute_subindex [some 10]
        [⟨0, 10, 0, 50⟩, ⟨10, 20, 60, 100⟩] "round" false ≠ [some 50] := by
  have hsort : sortSegments [(⟨0, 10, 0, 50⟩ : Breakpoint), ⟨10, 20, 60, 100⟩]
      = [⟨0, 10, 0, 50⟩, ⟨10, 20, 60, 100⟩] := by
    apply sortSegments_pair; norm_num
  have h : compute_subindex [some 10]
      [⟨0, 10, 0, 50⟩, ⟨10, 20, 60, 100⟩] "round" false = [some 60] := by
    rw [compute_subindex_map, hsort]
    simp only [List.map, subindexOne, List.enum, List.enumFrom, List.foldl]
    norm_num
    rw [apply_rounding, if_pos rfl, round_half_up]
    norm_num
    rw [rat_floor_eq_floor]
    norm_num
  refine ⟨h, ?_⟩
  rw [h]
  intro hbad
  have : (60 : ℚ) = 50 := by simpa using hbad
  norm_num at this

/-- C1 (amended): for a pack of two breakpoint segments that are contiguous
(the lower segments conc_high equals the upper segments conc_low), a
concentration exactly at the shared boundary maps to the rounded index_low
of the UPPER segment: segments are applied in ascending order and each
overwrites the cells its mask selects, so the later segment wins on
overlap. -/
theorem compute_subindex_boundary_maps_to_upper_index_low
    (series : List (Option ℚ)) (i : ℕ) (b : ℚ) (s1 s2 : Breakpoint)
    (mode : String) (hlow : s1.conc_low ≤ b) (hhigh1 : s1.conc_high = b)
    (hlow2 : s2.conc_low = b) (hhigh2 : b ≤ s2.conc_high)
    (hi : series.get? i = some (some b)) :
    (compute_subindex series [s1, s2] mode false).get? i
      = some (some (apply_rounding s2.index_low mode)) := by
  rw [compute_subindex_map, List.get?_map, hi]
  rw [sortSegments_pair s1 s2 (by rw [hlow2]; exact hlow)]
  simp only [subindexOne, List.enum, List.enumFrom, List.foldl, Option.map]
  rw [if_pos (by exact ⟨hlow2.le, hhigh2⟩)]
  have : (s2.index_high - s2.index_low) / (s2.conc_high - s2.conc_low)
      * (b - s2.conc_low) + s2.index_low = s2.index_low := by
    rw [hlow2]; ring
  rw [this]

/-- Witness for the amended C1 theorem at a concrete input. -/
theorem compute_subindex_boundary_witness :
    (compute_subindex [some 10] [⟨0, 10, 0, 50⟩, ⟨10, 20, 60, 100⟩]
        "round" false).get? 0
      = some (some (apply_rounding 60 "round")) :=
  compute_subindex_boundary_maps_to_upper_index_low
    [some 10] 0 10 ⟨0, 10, 0, 50⟩ ⟨10, 20, 60, 100⟩ "round"
    (by norm_num) rfl rfl (by norm_num) rfl

/-! ## Ventilation engine, event detection: app/analysis/ventilation.py -/

/-- Median of three rationals. -/
def median3 (a b c : ℚ) : ℚ := max (min a b) (min (max a b) c)

/-- Median of a window of one, two or three samples, as the pandas rolling
median produces them. -/
def medianWindow : List ℚ → ℚ
  | [a] => a
  | [a, b] => (a + b) / 2
  | [a, b, c] => median3 a b c
  | _ => 0

/-- The window of the centered width-3 rolling median at position i with
min_periods=1: positions i-1, i, i+1 clipped to the array bounds. -/
def window3 (xs : List ℚ) (i : ℕ) : List ℚ :=
  (xs.drop (i - 1)).take (if i = 0 then 2 else 3)

/-- The smoothing step of detect_co2_decay_events:
rolling(window=3, center=True, min_periods=1).median() over the excess. -/
def rollingMedian3 (xs : List ℚ) : List ℚ :=
  (List.range xs.length).map (fun i => medianWindow (window3 xs i))

/-- The peak scan of detect_co2_decay_events over the smoothed excess: the
first sample when it is at least its right neighbour and at least min_drop,
and every interior sample that is at least its left neighbour, strictly
greater than its right neighbour, and at least min_drop.  The loop runs over
range(1, n-1), so the last sample is never examined. -/
def detect_peaks (smooth : List ℚ) (min_drop : ℚ) : List ℕ :=
  (if smooth.getD 0 0 ≥ smooth.getD 1 0 ∧ smooth.getD 0 0 ≥ min_drop
   then [0] else []) ++
  (List.range smooth.length).filter
    (fun i =>
      decide (1 ≤ i) && decide (i + 1 < smooth.length) &&
      decide (smooth.getD i 0 ≥ smooth.getD (i - 1) 0) &&
      decide (smooth.getD i 0 > smooth.getD (i + 1) 0) &&
      decide (smooth.getD i 0 ≥ min_drop))

/-- The trough scan of detect_co2_decay_events over the smoothed excess. -/
def detect_troughs (smooth : List ℚ) : List ℕ :=
  (List.range smooth.length).filter
    (fun i =>
      decide (1 ≤ i) && decide (i + 1 < smooth.length) &&
      decide (smooth.getD i 0 ≤ smooth.getD (i - 1) 0) &&
      decide (smooth.getD i 0 < smooth.getD (i + 1) 0))

/-- The peak rule as claim C3 words it: smoothed value at least both
neighbours, or a boundary sample (first or last) at least its single
neighbour, together with the minimum-drop threshold. -/
def claimPeakRule (smooth : List ℚ) (min_drop : ℚ) (i : ℕ) : Prop :=
  (1 ≤ i ∧ i + 1 < smooth.length ∧ smooth.getD i 0 ≥ smooth.getD (i - 1) 0 ∧
    smooth.getD i 0 ≥ smooth.getD (i + 1) 0 ∧ smooth.getD i 0 ≥ min_drop) ∨
  (i = 0 ∧ 1 < smooth.length ∧ smooth.getD 0 0 ≥ smooth.getD 1 0 ∧
    smooth.getD 0 0 ≥ min_drop) ∨
  (i + 1 = smooth.length ∧ 1 < smooth.length ∧
    smooth.getD i 0 ≥ smooth.getD (i - 1) 0 ∧ smooth.getD i 0 ≥ min_drop)

/-- C3 (corrected, counterexample): on the excess signal 0,300,300,0 with
min_drop = 100, the smoothed signal is 150,300,300,150; sample 1 satisfies
the claimed peak rule (at least both neighbours and at least min_drop) but
detect_co2_decay_events does not identify it as a peak, because the code
requires an interior peak to be strictly greater than its right neighbour. -/
theorem detect_peaks_counterexample :
    claimPeakRule (rollingMedian3 [0, 300, 300, 0]) 100 1 ∧
      1 ∉ detect_peaks (rollingMedian3 [0, 300, 300, 0]) 100 := by
  have hsm : rollingMedian3 [0, 300, 300, 0] = [150, 300, 300, 150] := by
    simp [rollingMedian3, List.range, window3, medianWindow, median3,
      List.range.loop]
    norm_num
  rw [hsm]
  constructor
  · left
    refine ⟨le_refl 1, by norm_num, by norm_num, by norm_num, by norm_num⟩
  · intro hmem
    simp only [detect_peaks, List.mem_append, List.mem_filter,
      List.mem_range] at hmem
    rcases hmem with h0 | h1
    · split at h0 <;> simp_all
    · have := h1.2
      simp only [Bool.and_eq_true, decide_eq_true_eq] at this
      have hlt : (300 : ℚ) > 300 := by
        simpa [List.getD] using this.1.2
      exact absurd hlt (lt_irrefl _)

/-- C3 (amended): a sample index is identified as a peak by
detect_co2_decay_events exactly when it is the first sample and its smoothed
value is at least its right neighbour and at least min_drop, or it is an
interior sample (neither first nor last) whose smoothed value is at least
its left neighbour, STRICTLY greater than its right neighbour, and at least
min_drop; the last sample is never identified as a peak. -/
theorem detect_peaks_characterization (smooth : List ℚ) (min_drop : ℚ) (i : ℕ) :
    i ∈ detect_peaks smooth min_drop ↔
      ((i = 0 ∧ smooth.getD 0 0 ≥ smooth.getD 1 0 ∧ smooth.getD 0 0 ≥ min_drop) ∨
       (1 ≤ i ∧ i + 1 < smooth.length ∧
        smooth.getD i 0 ≥ smooth.getD (i - 1) 0 ∧
        smooth.getD i 0 > smooth.getD (i + 1) 0 ∧
        smooth.getD i 0 ≥ min_drop)) := by
  unfold detect_peaks
  constructor
  · intro hmem
    rcases List.mem_append.mp hmem with h0 | h1
    · left
      split at h0
      · next hcond =>
          rcases List.mem_singleton.mp h0 with rfl
          exact ⟨rfl, hcond.1, hcond.2⟩
      · exact absurd h0 (List.not_mem_nil i)
    · right
      have h := (List.mem_filter.mp h1).2
      simp only [Bool.and_eq_true, decide_eq_true_eq] at h
      exact ⟨h.1.1.1.1, h.1.1.1.2, h.1.1.2, h.1.2, h.2⟩
  · intro hc
    rcases hc with ⟨rfl, hge, hdrop⟩ | ⟨h1, hlen, hl, hr, hd⟩
    · exact List.mem_append.mpr (Or.inl (by rw [if_pos ⟨hge, hdrop⟩]; exact List.mem_singleton.mpr rfl))
    · refine List.mem_append.mpr (Or.inr (List.mem_filter.mpr ⟨?_, ?_⟩))
      · exact List.mem_range.mpr (Nat.lt_of_succ_lt hlen)
      · simp only [Bool.and_eq_true, decide_eq_true_eq]
        exact ⟨⟨⟨⟨h1, hlen⟩, hl⟩, hr⟩, hd⟩

/-! ## Gap detector: app/data/gaps.py -/

/-- Consecutive timestamp deltas, the result of times.diff().dropna(). -/
def diffsQ (times : List ℚ) : List ℚ :=
  List.zipWith (fun a b => a - b) times.tail times

/-- Stable insertion into an ascending list, used to model sorting for the
median. -/
def insertQ (x : ℚ) : List ℚ → List ℚ
  | [] => [x]
  | y :: rest => if x ≤ y then x :: y :: rest else y :: insertQ x rest

/-- Insertion sort of rationals. -/
def sortQ : List ℚ → List ℚ
  | [] => []
  | x :: rest => insertQ x (sortQ rest)

/-- The pandas median: middle element of the sorted list for odd length,
mean of the two middle elements for even length. -/
def medianQ (l : List ℚ) : ℚ :=
  if l.length % 2 = 1 then (sortQ l).getD (l.length / 2) 0
  else ((sortQ l).getD (l.length / 2 - 1) 0 + (sortQ l).getD (l.length / 2) 0) / 2

/-- Source function detect_gaps(times, factor): median delta as expected
cadence, no gaps when the cadence cannot be established, and one
(gap_start, gap_end) pair per delta strictly exceeding median times
factor. -/
def detect_gaps (times : List ℚ) (factor : ℚ) : List (ℚ × ℚ) :=
  if times = [] then []
  else if diffsQ times = [] then []
  else if medianQ (diffsQ times) ≤ 0 then []
  else
    (List.range (diffsQ times).length).filterMap
      (fun j =>
        if (diffsQ times).getD j 0 > medianQ (diffsQ times) * factor
        then some (times.getD j 0, times.getD (j + 1) 0) else none)

theorem diffsQ_length (times : List ℚ) : (diffsQ times).length = times.length - 1 := by
  unfold diffsQ
  cases times with
  | nil => rfl
  | cons t rest => simp [List.length_zipWith]

theorem diffsQ_getD (times : List ℚ) (j : ℕ) (h : j + 1 < times.length) :
    (diffsQ times).getD j 0 = times.getD (j + 1) 0 - times.getD j 0 := by
  unfold diffsQ
  have hj : j < (List.zipWith (fun a b => a - b) times.tail times).length := by
    rw [List.length_zipWith]
    cases times with
    | nil => simp at h
    | cons t rest => simp_all [Nat.lt_min, Nat.lt_of_succ_lt_succ h]
  rw [List.getD_eq_getElem _ _ hj, List.getElem_zipWith]
  have h1 : j < times.tail.length := by
    cases times with
    | nil => simp at h
    | cons t rest => simpa using Nat.lt_of_succ_lt_succ h
  have h2 : j < times.length := Nat.lt_of_succ_lt h
  rw [List.getD_eq_getElem _ _ (by omega : j + 1 < times.length),
      List.getD_eq_getElem _ _ h2]
  congr 1
  cases times with
  | nil => simp at h
  | cons t rest => simp

/-- C8: detect_gaps returns no gaps when no cadence can be established
(no deltas, or non-positive median delta); when the median cadence is
positive it returns exactly one (gap_start, gap_end) = (times[j], times[j+1])
pair for each consecutive delta strictly exceeding median times factor; and
for a uniformly sampled series with one artificial 10x delta and factor 2,
exactly one gap is returned, whose start is earlier than its end. -/
theorem detect_gaps_spec (times : List ℚ) (factor : ℚ) :
    ((diffsQ times = [] ∨ medianQ (diffsQ times) ≤ 0) →
      detect_gaps times factor = []) ∧
    (0 < medianQ (diffsQ times) →
      ∀ p : ℚ × ℚ, p ∈ detect_gaps times factor ↔
        ∃ j, j + 1 < times.length ∧
          times.getD (j + 1) 0 - times.getD j 0 > medianQ (diffsQ times) * factor ∧
          p = (times.getD j 0, times.getD (j + 1) 0)) ∧
    (∀ t0 d : ℚ, 0 < d →
      detect_gaps [t0, t0 + d, t0 + 2*d, t0 + 12*d, t0 + 13*d] 2
        = [(t0 + 2*d, t0 + 12*d)] ∧ t0 + 2*d < t0 + 12*d) := by
  refine ⟨?_, ?_, ?_⟩
  · intro h
    unfold detect_gaps
    split_ifs with h1 h2 h3 <;> try rfl
    rcases h with h | h
    · exact absurd h h2
    · exact absurd h h3
  · intro hmed p
    unfold detect_gaps
    split_ifs with h1 h2 h3
    · subst h1
      simp only [List.not_mem_nil, false_iff]
      rintro ⟨j, hj, -, -⟩
      simp at hj
    · simp only [List.not_mem_nil, false_iff]
      rintro ⟨j, hj, -, -⟩
      have hl := diffsQ_length times
      rw [h2] at hl
      simp only [List.length_nil] at hl
      omega
    · exact absurd h3 (not_le.mpr hmed)
    · rw [List.mem_filterMap]
      constructor
      · rintro ⟨j, hjr, hj⟩
        rw [List.mem_range] at hjr
        by_cases hgt : (diffsQ times).getD j 0 > medianQ (diffsQ times) * factor
        · rw [if_pos hgt] at hj
          have hjlen : j + 1 < times.length := by
            have := diffsQ_length times
            omega
          refine ⟨j, hjlen, ?_, by injection hj with h; exact h.symm⟩
          rwa [diffsQ_getD times j hjlen] at hgt
        · rw [if_neg hgt] at hj
          exact Option.noConfusion hj
      · rintro ⟨j, hjlen, hgt, rfl⟩
        refine ⟨j, ?_, ?_⟩
        · rw [List.mem_range, diffsQ_length]
          omega
        · rw [if_pos (by rwa [diffsQ_getD times j hjlen])]
  · intro t0 d hd
    have hdiffs : diffsQ [t0, t0 + d, t0 + 2*d, t0 + 12*d, t0 + 13*d]
        = [d, d, 10*d, d] := by
      simp [diffsQ]
      exact ⟨by ring, by ring, by ring⟩
    have h10 : ¬ ((10:ℚ)*d ≤ d) := by linarith
    have hmed : medianQ [d, d, 10*d, d] = d := by
      simp [medianQ, sortQ, insertQ, h10]
    constructor
    · unfold detect_gaps
      rw [if_neg (by simp), hdiffs, if_neg (by simp), hmed,
          if_neg (by push_neg; exact hd)]
      have c0 : ¬ (d * 2 < d) := by linarith
      have c2 : d * 2 < 10 * d := by linarith
      norm_num [List.range_succ, List.range_zero, List.filterMap_append,
        List.filterMap_cons, List.getD, c0, c2]
    · linarith

/-- Witness for the C8 theorem at concrete inputs: a single-sample series
yields no gaps, a 10x delta in a unit-cadence series is reported as a gap,
and the parametric uniform-with-one-10x-delta family at d = 1. -/
theorem detect_gaps_spec_witness :
    detect_gaps [(0:ℚ)] 2 = [] ∧
    ((2:ℚ), 12) ∈ detect_gaps [(0:ℚ), 1, 2, 12, 13] 2 ∧
    detect_gaps [(0:ℚ), 1, 2, 12, 13] 2 = [((2:ℚ), 12)] := by
  have hinst := (detect_gaps_spec ([] : List ℚ) 2).2.2 0 1 one_pos
  norm_num at hinst
  refine ⟨(detect_gaps_spec [(0:ℚ)] 2).1 (Or.inl rfl), ?_, hinst⟩
  rw [hinst]
  exact List.mem_singleton.mpr rfl

/-! ## Exposure engine: app/analysis/exposure.py -/

/-- Per-sample elapsed seconds: index.diff().total_seconds().fillna(0); the
first sample contributes a zero-width interval. -/
def dtList (times : List ℚ) : List ℚ :=
  match times with
  | [] => []
  | _ :: _ => 0 :: diffsQ times

/-- values.fillna(0): missing cells are replaced by zero before
integration. -/
def fillZero (values : List (Option ℚ)) : List ℚ :=
  values.map (fun v => v.getD 0)

/-- Source function exposure_auc: sum of value times elapsed seconds. -/
def exposure_auc (times : List ℚ) (values : List (Option ℚ)) : ℚ :=
  (List.zipWith (fun v dt => v * dt) (fillZero values) (dtList times)).sum

/-- Result record of exposure_stats; the NaN-able derived floats are
Option-valued. -/
structure ExposureStats where
  auc : ℚ
  exceedance_auc : ℚ
  time_above_seconds : ℚ
  total_seconds : ℚ
  mean : Option ℚ
  mean_excess : Option ℚ
  time_above_pct : Option ℚ
  relative_to_threshold : Option ℚ
deriving DecidableEq, Repr

/-- Source function exposure_stats(series, threshold). -/
def exposure_stats (times : List ℚ) (values : List (Option ℚ)) (threshold : ℚ) :
    ExposureStats :=
  { auc := (List.zipWith (fun v dt => v * dt) (fillZero values) (dtList times)).sum
    exceedance_auc := (List.zipWith (fun v dt => max (v - threshold) 0 * dt)
      (fillZero values) (dtList times)).sum
    time_above_seconds := (List.zipWith (fun v dt => if threshold < v then dt else 0)
      (fillZero values) (dtList times)).sum
    total_seconds := (dtList times).sum
    mean := if 0 < (dtList times).sum then
        some ((List.zipWith (fun v dt => v * dt) (fillZero values) (dtList times)).sum
          / (dtList times).sum)
      else none
    mean_excess := if 0 < (dtList times).sum then
        some ((List.zipWith (fun v dt => max (v - threshold) 0 * dt)
            (fillZero values) (dtList times)).sum / (dtList times).sum)
      else none
    time_above_pct := if 0 < (dtList times).sum then
        some ((List.zipWith (fun v dt => if threshold < v then dt else 0)
            (fillZero values) (dtList times)).sum / (dtList times).sum * 100)
      else none
    relative_to_threshold := if 0 < threshold then
        (if 0 < (dtList times).sum then
          some ((List.zipWith (fun v dt => v * dt) (fillZero values) (dtList times)).sum
            / (dtList times).sum / threshold)
        else none)
      else none }

theorem dtList_length (times : List ℚ) : (dtList times).length = times.length := by
  cases times with
  | nil => rfl
  | cons t rest =>
      simp only [dtList, List.length_cons, diffsQ_length, List.length_cons]
      omega

theorem zipWith_sub_telescope (rest : List ℚ) :
    ∀ t : ℚ, (List.zipWith (fun a b => a - b) rest (t :: rest)).sum
      = rest.getLastD t - t := by
  induction rest with
  | nil => intro t; simp
  | cons r rs ih =>
      intro t
      simp only [List.zipWith, List.sum_cons, List.getLastD_cons, ih r]
      ring

theorem dtList_sum (times : List ℚ) :
    (dtList times).sum = times.getLastD 0 - times.headD 0 := by
  cases times with
  | nil => simp [dtList]
  | cons t rest =>
      simp only [dtList, diffsQ, List.tail_cons, List.sum_cons,
        List.headD_cons, List.getLastD_cons, zipWith_sub_telescope rest t]
      ring

theorem zipWith_mul_replicate (V : ℚ) (dt : List ℚ) :
    (List.zipWith (fun v d => v * d) (List.replicate dt.length V) dt).sum
      = V * dt.sum := by
  induction dt with
  | nil => simp
  | cons d ds ih =>
      simp only [List.length_cons, List.replicate, List.zipWith, List.sum_cons, ih]
      ring

/-- C9: exposure_stats integrates value times elapsed seconds with the first
sample contributing zero width, so for a constant series of value V the AUC
is V times total_seconds, total_seconds telescopes to last minus first
timestamp, relative_to_threshold is V/threshold for positive threshold and
positive total time, and it is missing (NaN) when threshold = 0 or
total_seconds = 0. -/
theorem exposure_stats_const_series (times : List ℚ) (V threshold : ℚ) :
    (exposure_stats times (List.replicate times.length (some V)) threshold).auc
      = V * (dtList times).sum ∧
    (exposure_stats times (List.replicate times.length (some V)) threshold).total_seconds
      = times.getLastD 0 - times.headD 0 ∧
    (0 < threshold → 0 < (dtList times).sum →
      (exposure_stats times (List.replicate times.length (some V))
          threshold).relative_to_threshold = some (V / threshold)) ∧
    (threshold = 0 →
      (exposure_stats times (List.replicate times.length (some V))
          threshold).relative_to_threshold = none) ∧
    ((dtList times).sum = 0 →
      (exposure_stats times (List.replicate times.length (some V))
          threshold).relative_to_threshold = none) := by
  have hfill : fillZero (List.replicate times.length (some V))
      = List.replicate (dtList times).length V := by
    rw [dtList_length]
    simp [fillZero]
  have hauc : (List.zipWith (fun v dt => v * dt)
      (fillZero (List.replicate times.length (some V))) (dtList times)).sum
      = V * (dtList times).sum := by
    rw [hfill]
    exact zipWith_mul_replicate V (dtList times)
  refine ⟨?_, ?_, ?_, ?_, ?_⟩
  · simpa [exposure_stats] using hauc
  · simp [exposure_stats, dtList_sum]
  · intro ht htot
    simp only [exposure_stats, if_pos ht, if_pos htot, hauc]
    rw [mul_div_assoc, div_self (ne_of_gt htot), mul_one]
  · intro h0
    simp [exposure_stats, h0]
  · intro h0
    simp [exposure_stats, h0]

/-- Witness for the C9 theorem at a concrete input: constant value 10 over
timestamps 0, 3600, 7200 with threshold 5. -/
theorem exposure_stats_const_series_witness :
    (exposure_stats [0, 3600, 7200] (List.replicate 3 (some 10)) 5).auc
      = 10 * (dtList [0, 3600, 7200]).sum ∧
    (exposure_stats [0, 3600, 7200] (List.replicate 3 (some 10))
        5).relative_to_threshold = some (10 / 5) := by
  have h := exposure_stats_const_series [0, 3600, 7200] 10 5
  refine ⟨h.1, ?_⟩
  apply h.2.2.1 (by norm_num)
  rw [dtList_sum]
  norm_num

theorem set_of_get? {α : Type} (l : List α) (i : ℕ) (a : α)
    (h : l.get? i = some a) : l.set i a = l := by
  induction l generalizing i with
  | nil => simp at h
  | cons x xs ih =>
      cases i with
      | zero =>
          simp only [List.get?] at h
          injection h with h
          simp [h]
      | succ n =>
          simp only [List.get?] at h
          simp [ih n h]

/-- C10: in exposure_auc and exposure_stats a missing value is treated
exactly as the value 0 rather than excluded: replacing a missing cell by
an explicit 0 changes nothing in any returned statistic (so the missing
sample contributes 0 times its elapsed width to the AUC and
max(0 - threshold, 0) times it to the exceedance AUC), while total_seconds
is the sum of all per-sample widths regardless of the values, so the
missing sample still counts toward the averaging time. -/
theorem exposure_missing_treated_as_zero (times : List ℚ)
    (values : List (Option ℚ)) (threshold : ℚ) (i : ℕ)
    (hi : values.get? i = some none) :
    exposure_auc times (values.set i (some 0)) = exposure_auc times values ∧
    exposure_stats times (values.set i (some 0)) threshold
      = exposure_stats times values threshold ∧
    (exposure_stats times values threshold).total_seconds = (dtList times).sum := by
  have hfill : fillZero (values.set i (some 0)) = fillZero values := by
    unfold fillZero
    rw [List.map_set]
    apply set_of_get?
    rw [List.get?_map, hi]
    rfl
  refine ⟨?_, ?_, rfl⟩
  · unfold exposure_auc
    rw [hfill]
  · unfold exposure_stats
    rw [hfill]

/-- Witness for the C10 theorem: a three-sample series whose middle cell is
missing. -/
theorem exposure_missing_treated_as_zero_witness :
    exposure_auc [0, 60, 120] ([some 4, none, some 6].set 1 (some 0))
      = exposure_auc [0, 60, 120] [some 4, none, some 6] ∧
    exposure_stats [0, 60, 120] ([some 4, none, some 6].set 1 (some 0)) 5
      = exposure_stats [0, 60, 120] [some 4, none, some 6] 5 := by
  have h := exposure_missing_treated_as_zero [0, 60, 120] [some 4, none, some 6]
    5 1 rfl
  exact ⟨h.1, h.2.1⟩

/-! ## Smoothing filters: app/analysis/filters.py -/

/-- One iteration of the ema_time_aware loop.  The state is
(prev, prev_time); the step returns the new state and the output cell.
expQ stands for math.exp. -/
def emaStep (expQ : ℚ → ℚ) (tau : ℚ) (nan_mode : String)
    (st : Option ℚ × Option ℚ) (tv : ℚ × Option ℚ) :
    (Option ℚ × Option ℚ) × Option ℚ :=
  match tv.2 with
  | none =>
      if nan_mode = "reset" then ((none, st.2), none)
      else if nan_mode = "hold" ∧ st.1 ≠ none then ((st.1, st.2), st.1)
      else ((st.1, st.2), none)
  | some v =>
      match st.1, st.2 with
      | some p, some pt =>
          let dt := if tv.1 - pt < 0 then 0 else tv.1 - pt
          let alpha := 1 - expQ (-(dt / tau))
          let np := alpha * v + (1 - alpha) * p
          ((some np, some tv.1), some np)
      | _, _ => ((some v, some tv.1), some v)

/-- The loop of ema_time_aware, threading the (prev, prev_time) state over
the (time, value) pairs and emitting one output cell per sample. -/
def emaLoop (expQ : ℚ → ℚ) (tau : ℚ) (nan_mode : String)
    (st : Option ℚ × Option ℚ) : List (ℚ × Option ℚ) → List (Option ℚ)
  | [] => []
  | tv :: rest =>
      let r := emaStep expQ tau nan_mode st tv
      r.2 :: emaLoop expQ tau nan_mode r.1 rest

/-- Source function ema_time_aware on a numeric tau: passthrough when tau is
missing or non-positive, otherwise the stateful loop starting from an empty
state. -/
def ema_time_aware (expQ : ℚ → ℚ) (tau_seconds : Option ℚ) (nan_mode : String)
    (series : List (ℚ × Option ℚ)) : List (Option ℚ) :=
  match tau_seconds with
  | none => series.map (fun tv => tv.2)
  | some tau =>
      if tau ≤ 0 then series.map (fun tv => tv.2)
      else emaLoop expQ tau nan_mode (none, none) series

/-- The recurrence claim C7 describes for gap policy skip, written
independently from the words of the claim: the state is the last smoothed
value with its timestamp, only advanced by valid samples; a missing sample
yields a missing output and leaves the state unchanged; a valid sample is
blended with weight alpha = 1 - exp(-(max (t - t_prev) 0)/tau). -/
def emaSkipRecurrence (expQ : ℚ → ℚ) (tau : ℚ) :
    Option (ℚ × ℚ) → List (ℚ × Option ℚ) → List (Option ℚ)
  | _, [] => []
  | st, (_, none) :: rest => none :: emaSkipRecurrence expQ tau st rest
  | none, (t, some v) :: rest =>
      some v :: emaSkipRecurrence expQ tau (some (v, t)) rest
  | some (p, pt), (t, some v) :: rest =>
      let alpha := 1 - expQ (-(max (t - pt) 0 / tau))
      let nv := alpha * v + (1 - alpha) * p
      some nv :: emaSkipRecurrence expQ tau (some (nv, t)) rest

theorem emaLoop_skip_eq_recurrence (expQ : ℚ → ℚ) (tau : ℚ) :
    ∀ (series : List (ℚ × Option ℚ)) (p pt : ℚ),
      (emaLoop expQ tau "skip" (none, none) series
        = emaSkipRecurrence expQ tau none series) ∧
      (emaLoop expQ tau "skip" (some p, some pt) series
        = emaSkipRecurrence expQ tau (some (p, pt)) series) := by
  intro series
  induction series with
  | nil => intro p pt; exact ⟨rfl, rfl⟩
  | cons tv rest ih =>
      intro p pt
      obtain ⟨t, v?⟩ := tv
      cases v? with
      | none =>
          constructor
          · show none :: emaLoop expQ tau "skip" (none, none) rest
              = none :: emaSkipRecurrence expQ tau none rest
            rw [(ih p pt).1]
          · show none :: emaLoop expQ tau "skip" (some p, some pt) rest
              = none :: emaSkipRecurrence expQ tau (some (p, pt)) rest
            rw [(ih p pt).2]
      | some v =>
          constructor
          · show some v :: emaLoop expQ tau "skip" (some v, some t) rest
              = some v :: emaSkipRecurrence expQ tau (some (v, t)) rest
            rw [(ih v t).2]
          · have hdt : (if t - pt < 0 then (0:ℚ) else t - pt) = max (t - pt) 0 := by
              rcases lt_or_le (t - pt) 0 with h | h
              · rw [if_pos h, max_eq_right h.le]
              · rw [if_neg (not_lt.mpr h), max_eq_left h]
            show some _ :: emaLoop expQ tau "skip"
                (some ((1 - expQ (-((if t - pt < 0 then 0 else t - pt) / tau))) * v
                  + (1 - (1 - expQ (-((if t - pt < 0 then 0 else t - pt) / tau)))) * p),
                 some t) rest = _
            rw [hdt, emaSkipRecurrence]
            rw [((ih ((1 - expQ (-(max (t - pt) 0 / tau))) * v
              + (1 - (1 - expQ (-(max (t - pt) 0 / tau)))) * p) t)).2]

/-- C7: ema_time_aware with a positive time constant and gap policy skip
computes the online EMA whose per-step weight is
alpha = 1 - exp(-(elapsed seconds since the previous valid sample)/tau) with
negative elapsed time clamped to zero, where a missing input yields a
missing output and leaves the smoothing state unchanged; and for
tau <= 0 the input series is returned unchanged under every gap policy. -/
theorem ema_time_aware_spec (expQ : ℚ → ℚ) (tau : ℚ)
    (series : List (ℚ × Option ℚ)) :
    (0 < tau → ema_time_aware expQ (some tau) "skip" series
        = emaSkipRecurrence expQ tau none series) ∧
    (∀ nan_mode : String, tau ≤ 0 →
      ema_time_aware expQ (some tau) nan_mode series
        = series.map (fun tv => tv.2)) := by
  constructor
  · intro ht
    show (if tau ≤ 0 then List.map (fun tv => tv.2) series
        else emaLoop expQ tau "skip" (none, none) series)
      = emaSkipRecurrence expQ tau none series
    rw [if_neg (not_le.mpr ht)]
    exact (emaLoop_skip_eq_recurrence expQ tau series 0 0).1
  · intro nan_mode h
    show (if tau ≤ 0 then List.map (fun tv => tv.2) series
        else emaLoop expQ tau nan_mode (none, none) series)
      = List.map (fun tv => tv.2) series
    rw [if_pos h]

/-- Witness for the C7 theorem at concrete inputs: a three-sample series
with a middle gap under skip, and a tau = 0 passthrough under hold. -/
theorem ema_time_aware_spec_witness :
    ema_time_aware (fun _ => 1/2) (some 1) "skip"
        [(0, some 10), (5, none), (9, some 20)]
      = emaSkipRecurrence (fun _ => 1/2) 1 none
        [(0, some 10), (5, none), (9, some 20)] ∧
    ema_time_aware (fun _ => 1/2) (some 0) "hold" [(0, some 10), (5, none)]
      = [some 10, none] := by
  constructor
  · exact (ema_time_aware_spec (fun _ => 1/2) 1
      [(0, some 10), (5, none), (9, some 20)]).1 (by norm_num)
  · rw [(ema_time_aware_spec (fun _ => 1/2) 0 [(0, some 10), (5, none)]).2
      "hold" le_rfl]
    rfl

/-! ## Validity mask engine: app/data/mask_rules.py -/

/-- Particulate mass columns. -/
def PM_COLUMNS : List String := ["pm1_0", "pm2_5", "pm4_0", "pm10"]

/-- Particulate count columns. -/
def PN_COLUMNS : List String := ["pn0_5", "pn1_0", "pn2_5", "pn4_0", "pn10_0"]

/-- Built-in plausibility ranges. -/
def DEFAULT_RANGES : List (String × ℚ × ℚ) :=
  [("co2", 350, 20000), ("temp_c", -40, 85), ("rh", 0, 100),
   ("pressure", 300, 1100)]

/-- The two fields of ProcessingConfig that the mask engine reads; the
configRanges field is named plausible ranges in the source and overrides the
defaults. -/
structure ProcessingConfig where
  voc_nox_zero_mode : String
  configRanges : List (String × ℚ × ℚ)

/-- First range associated to the column name in an association list. -/
def lookupRange (rs : List (String × ℚ × ℚ)) (name : String) : Option (ℚ × ℚ) :=
  (rs.find? (fun r => decide (r.1 = name))).map (fun r => r.2)

/-- The merged dict of DEFAULT_RANGES and the per-dataset overrides; the
override wins when both define the column. -/
def mergedRange (cfg : ProcessingConfig) (name : String) : Option (ℚ × ℚ) :=
  match lookupRange cfg.configRanges name with
  | some r => some r
  | none => lookupRange DEFAULT_RANGES name

/-- Validity of a single cell under the per-column-class rules of
apply_validity_masks, in the branch order of the source: null always
invalid; flags only null-checked; particulate columns reject negatives;
voc and nox reject negatives and, in mask_inactive mode, zeros; ranged
columns reject values outside lo..hi; co2_uncomp rejects non-positives;
unknown columns only null-checked. -/
def cellValid (cfg : ProcessingConfig) (name : String) (cell : Option ℚ) : Bool :=
  match cell with
  | none => false
  | some v =>
      if name = "flags" then true
      else if PM_COLUMNS.contains name || PN_COLUMNS.contains name then
        decide (0 ≤ v)
      else if name = "voc" || name = "nox" then
        decide (0 ≤ v) &&
          (if cfg.voc_nox_zero_mode = "mask_inactive" then decide (v ≠ 0) else true)
      else
        match mergedRange cfg name with
        | some lh => decide (lh.1 ≤ v) && decide (v ≤ lh.2)
        | none => if name = "co2_uncomp" then decide (0 < v) else true

/-- The validity mask of one column. -/
def maskCol (cfg : ProcessingConfig) (name : String) (cells : List (Option ℚ)) :
    List Bool :=
  cells.map (cellValid cfg name)

/-- Nulling the cells whose mask is false: clean.loc[~valid, col] = NA. -/
def applyMask (mask : List Bool) (cells : List (Option ℚ)) : List (Option ℚ) :=
  List.zipWith (fun b v => if b then v else none) mask cells

/-- Per-column per-reason invalid counts, in the order the source records
them; a reason is only recorded when its count is positive. -/
def reasonsCol (cfg : ProcessingConfig) (name : String)
    (cells : List (Option ℚ)) : List (String × ℕ) :=
  let nullC := cells.countP (fun c => c.isNone)
  let base := if nullC ≠ 0 then [("null", nullC)] else []
  let negC := cells.countP (fun c =>
    match c with | some v => decide (v < 0) | none => false)
  let negPart := if negC ≠ 0 then [("negative", negC)] else []
  if name = "flags" then base
  else if PM_COLUMNS.contains name || PN_COLUMNS.contains name then
    base ++ negPart
  else if name = "voc" || name = "nox" then
    base ++ negPart ++
      (if cfg.voc_nox_zero_mode = "mask_inactive" then
        (let zeroC := cells.countP (fun c =>
            match c with | some v => decide (v = 0) | none => false)
         if zeroC ≠ 0 then [("inactive_zero", zeroC)] else [])
      else [])
  else
    match mergedRange cfg name with
    | some lh =>
        (let belowC := cells.countP (fun c =>
            match c with | some v => decide (v < lh.1) | none => false)
         let aboveC := cells.countP (fun c =>
            match c with | some v => decide (lh.2 < v) | none => false)
         base ++ (if belowC ≠ 0 then [("below_min", belowC)] else []) ++
           (if aboveC ≠ 0 then [("above_max", aboveC)] else []))
    | none =>
        if name = "co2_uncomp" then
          (let npC := cells.countP (fun c =>
              match c with | some v => decide (v ≤ 0) | none => false)
           base ++ (if npC ≠ 0 then [("non_positive", npC)] else []))
        else base

/-- Result record of apply_validity_masks. -/
structure MaskResult where
  masks : List (String × List Bool)
  clean : List (String × List (Option ℚ))
  reasons : List (String × List (String × ℕ))
deriving DecidableEq

/-- Source function apply_validity_masks: the timestamp column is skipped
entirely, the flags column keeps its raw cells (the loop continues before
the null-out), every other column is masked cell-wise. -/
def apply_validity_masks (df : List (String × List (Option ℚ)))
    (cfg : ProcessingConfig) : MaskResult :=
  { masks := df.filterMap (fun c =>
      if c.1 = "timestamp" then none else some (c.1, maskCol cfg c.1 c.2))
    clean := df.map (fun c =>
      if c.1 = "timestamp" ∨ c.1 = "flags" then c
      else (c.1, applyMask (maskCol cfg c.1 c.2) c.2))
    reasons := df.filterMap (fun c =>
      if c.1 = "timestamp" then none else some (c.1, reasonsCol cfg c.1 c.2)) }

theorem zipWith_map_left_same {α β : Type} (f : β → α → α) (g : α → β)
    (l : List α) :
    List.zipWith f (l.map g) l = l.map (fun a => f (g a) a) := by
  induction l with
  | nil => rfl
  | cons a t ih => simp [List.zipWith, ih]

theorem applyMask_maskCol (cfg : ProcessingConfig) (name : String)
    (cells : List (Option ℚ)) :
    applyMask (maskCol cfg name cells) cells =
      cells.map (fun v => if cellValid cfg name v then v else none) := by
  unfold applyMask maskCol
  exact zipWith_map_left_same _ _ cells

theorem cellValid_none (cfg : ProcessingConfig) (name : String) :
    cellValid cfg name none = false := rfl

theorem cellValid_masked_cell (cfg : ProcessingConfig) (name : String)
    (v : Option ℚ) :
    cellValid cfg name (if cellValid cfg name v then v else none)
      = cellValid cfg name v := by
  cases h : cellValid cfg name v with
  | true => rw [if_pos rfl, h]
  | false => rw [if_neg (by simp [h]), cellValid_none]

theorem masked_cell_idem (cfg : ProcessingConfig) (name : String)
    (v : Option ℚ) :
    (if cellValid cfg name (if cellValid cfg name v then v else none)
      then (if cellValid cfg name v then v else none) else none)
      = (if cellValid cfg name v then v else none) := by
  rw [cellValid_masked_cell]
  cases h : cellValid cfg name v with
  | true => rfl
  | false => simp

theorem flags_clean_eq_raw (cfg : ProcessingConfig) (cells : List (Option ℚ)) :
    applyMask (maskCol cfg "flags" cells) cells = cells := by
  rw [applyMask_maskCol]
  have : ∀ v : Option ℚ,
      (if cellValid cfg "flags" v then v else none) = v := by
    intro v
    cases v with
    | none => rw [if_neg (by rw [cellValid_none]; simp)]
    | some x => rw [if_pos (by rfl)]
  calc cells.map (fun v => if cellValid cfg "flags" v then v else none)
      = cells.map id := List.map_congr_left (fun v _ => this v)
    _ = cells := List.map_id cells

theorem maskCol_clean_idem (cfg : ProcessingConfig) (name : String)
    (cells : List (Option ℚ)) :
    maskCol cfg name (applyMask (maskCol cfg name cells) cells)
      = maskCol cfg name cells := by
  rw [applyMask_maskCol]
  unfold maskCol
  rw [List.map_map]
  exact List.map_congr_left (fun v _ => cellValid_masked_cell cfg name v)

theorem applyMask_clean_idem (cfg : ProcessingConfig) (name : String)
    (cells : List (Option ℚ)) :
    applyMask (maskCol cfg name (applyMask (maskCol cfg name cells) cells))
        (applyMask (maskCol cfg name cells) cells)
      = applyMask (maskCol cfg name cells) cells := by
  rw [applyMask_maskCol cfg name cells, applyMask_maskCol, List.map_map]
  exact List.map_congr_left (fun v _ => masked_cell_idem cfg name v)

/-- C4: apply_validity_masks is a pure deterministic function of the raw
table and the configuration (two calls on the same inputs give identical
results, and the embedding is a pure function, so the input is not
mutated); its clean table is exactly the raw table with the cells whose
column mask is false set to missing, every other cell (including the whole
timestamp column and the flags column, whose mask is false only on already
missing cells) kept; and re-applying the function to its own clean output
reproduces the same masks and the same clean table. -/
theorem apply_validity_masks_pure_idempotent
    (df : List (String × List (Option ℚ))) (cfg : ProcessingConfig) :
    apply_validity_masks df cfg = apply_validity_masks df cfg ∧
    (apply_validity_masks df cfg).clean = df.map (fun c =>
      (c.1, if c.1 = "timestamp" then c.2
            else applyMask (maskCol cfg c.1 c.2) c.2)) ∧
    (apply_validity_masks ((apply_validity_masks df cfg).clean) cfg).masks
      = (apply_validity_masks df cfg).masks ∧
    (apply_validity_masks ((apply_validity_masks df cfg).clean) cfg).clean
      = (apply_validity_masks df cfg).clean := by
  refine ⟨rfl, ?_, ?_, ?_⟩
  · show df.map _ = df.map _
    apply List.map_congr_left
    intro c _
    by_cases hts : c.1 = "timestamp"
    · rw [if_pos (Or.inl hts), if_pos hts]
    · by_cases hfl : c.1 = "flags"
      · rw [if_pos (Or.inr hfl), if_neg hts]
        have hmm : applyMask (maskCol cfg c.1 c.2) c.2 = c.2 := by
          rw [hfl]; exact flags_clean_eq_raw cfg c.2
        rw [hmm]
      · rw [if_neg (by push_neg; exact ⟨hts, hfl⟩), if_neg hts]
  · show ((apply_validity_masks df cfg).clean).filterMap _ = df.filterMap _
    show (df.map _).filterMap _ = df.filterMap _
    rw [List.filterMap_map]
    apply List.filterMap_congr
    intro c _
    by_cases hts : c.1 = "timestamp"
    · simp only [Function.comp_apply, if_pos (Or.inl hts), if_pos hts]
    · by_cases hfl : c.1 = "flags"
      · simp only [Function.comp_apply, if_pos (Or.inr hfl)]
      · simp only [Function.comp_apply,
          if_neg (show ¬(c.1 = "timestamp" ∨ c.1 = "flags") by
            push_neg; exact ⟨hts, hfl⟩), if_neg hts]
        rw [maskCol_clean_idem]
  · show (((apply_validity_masks df cfg).clean).map _) = df.map _
    show ((df.map _).map _) = df.map _
    rw [List.map_map]
    apply List.map_congr_left
    intro c _
    by_cases hts : c.1 = "timestamp"
    · simp only [Function.comp_apply, if_pos (Or.inl hts)]
    · by_cases hfl : c.1 = "flags"
      · simp only [Function.comp_apply, if_pos (Or.inr hfl)]
      · have hne : ¬(c.1 = "timestamp" ∨ c.1 = "flags") := by
          push_neg; exact ⟨hts, hfl⟩
        simp only [Function.comp_apply, if_neg hne]
        rw [applyMask_clean_idem]

/-! ## Ventilation engine, decay fits: app/analysis/ventilation.py -/

/-- Result record of the decay fits.  The NaN-able rate fields k_per_hr and
ach are Option-valued; none models an IEEE NaN reaching the field. -/
structure DecayFitResult where
  k_per_hr : Option ℚ
  ach : Option ℚ
  baseline : ℚ
  r2 : ℚ
  ci : Option (ℚ × ℚ)
  warnings : List String
  residuals : List (ℚ × ℚ)
deriving DecidableEq, Repr

/-- The degenerate DecayFitResult(0.0, 0.0, baseline, 0.0, None, warnings,
empty series) the source returns on every insufficient-data branch. -/
def zeroResult (baseline : ℚ) (warnings : List String) : DecayFitResult :=
  ⟨some 0, some 0, baseline, 0, none, warnings, []⟩

/-- The double-precision value of numpy e. -/
def napierE : ℚ := 2.718281828459045

/-- Count of samples with a present value strictly above baseline:
(co2 > baseline).sum() of the source. -/
def countValidAbove (co2 : List (Option ℚ)) (baseline : ℚ) : ℕ :=
  co2.countP (fun c =>
    match c with | some v => decide (baseline < v) | none => false)

/-- np.nanmax: maximum of the present values (0 for an all-missing list,
which the callers rule out by their guards). -/
def nanmaxQ (l : List (Option ℚ)) : ℚ :=
  match l.filterMap id with
  | [] => 0
  | x :: xs => xs.foldl max x

/-- np.nanargmax: first index holding the nan-ignored maximum. -/
def nanargmaxQ (l : List (Option ℚ)) : ℕ :=
  l.findIdx (fun c => decide (c = some (nanmaxQ l)))

/-- First index at or after start whose present value is at most target; the
source scan skips missing cells and breaks at the first hit. -/
def findCrossing (cexcess : List (Option ℚ)) (start : ℕ) (target : ℚ) :
    Option ℕ :=
  ((List.range cexcess.length).filter
    (fun i => decide (start ≤ i) &&
      match cexcess.getD i none with
      | some v => decide (v ≤ target)
      | none => false)).head?

inductive CO2Method
  | regression
  | two_point
  | time_constant_63
deriving DecidableEq, Repr

/-- (time, value) pairs whose value is present and strictly above baseline:
the valid = (co2 > baseline) restriction. -/
def abovePairs (times : List ℚ) (co2 : List (Option ℚ)) (baseline : ℚ) :
    List (ℚ × ℚ) :=
  (times.zip co2).filterMap (fun tv =>
    match tv.2 with
    | some v => if baseline < v then some (tv.1, v) else none
    | none => none)

/-- Source helper _to_hours: elapsed hours since the first retained
sample. -/
def toHours (ts : List ℚ) : List ℚ :=
  ts.map (fun t => (t - ts.headD 0) / 3600)

/-- Source helper _r2. -/
def r2Q (y yhat : List ℚ) : ℚ :=
  if (y.map (fun a => (a - y.sum / y.length)^2)).sum = 0 then 0
  else 1 - (List.zipWith (fun a b => (a - b)^2) y yhat).sum
    / (y.map (fun a => (a - y.sum / y.length)^2)).sum

/-- Assembly of the successful fit result shared by the regression-style
paths: residuals are indexed by the retained times, low R squared is
warned about. -/
def mkFitResult (ts : List ℚ) (y yhat : List ℚ) (baseline k : ℚ) :
    DecayFitResult :=
  ⟨some k, some k, baseline, r2Q y yhat, none,
   if r2Q y yhat < 0.6 then ["Low R^2"] else [],
   List.zip ts (List.zipWith (fun a b => a - b) y yhat)⟩

/-- The branch of fit_co2_decay after the time_constant_63 guards: peak
location, 1/e crossing search, linear interpolation of the crossing time,
and k = 1/tau. -/
def tc63Core (times : List ℚ) (cexcess : List (Option ℚ)) (baseline : ℚ) :
    DecayFitResult :=
  match findCrossing cexcess (nanargmaxQ cexcess + 1)
      (((cexcess.getD (nanargmaxQ cexcess) none).getD 0) / napierE) with
  | none => zeroResult baseline ["Did not reach 63% decay threshold"]
  | some c =>
      match cexcess.getD (c - 1) none with
      | none =>
          -- the source computes frac from a NaN y0 here; the NaN propagates
          -- through t_cross and tau into the rate, and the result carries a
          -- NaN rate with empty warnings and residuals
          ⟨none, none, baseline, 0, none, [], []⟩
      | some y0 =>
          if (cexcess.getD c none).getD 0 = y0 then
            if (times.getD c 0 - times.getD (nanargmaxQ cexcess) 0) / 3600 ≤ 0
            then zeroResult baseline ["Invalid time constant"]
            else
              ⟨some (1 / ((times.getD c 0 - times.getD (nanargmaxQ cexcess) 0) / 3600)),
               some (1 / ((times.getD c 0 - times.getD (nanargmaxQ cexcess) 0) / 3600)),
               baseline, 0, none, [], []⟩
          else
            if ((times.getD (c - 1) 0 + (times.getD c 0 - times.getD (c - 1) 0)
                  * ((((cexcess.getD (nanargmaxQ cexcess) none).getD 0) / napierE - y0)
                    / ((cexcess.getD c none).getD 0 - y0)))
                - times.getD (nanargmaxQ cexcess) 0) / 3600 ≤ 0
            then zeroResult baseline ["Invalid time constant"]
            else
              ⟨some (1 / (((times.getD (c - 1) 0 + (times.getD c 0 - times.getD (c - 1) 0)
                  * ((((cexcess.getD (nanargmaxQ cexcess) none).getD 0) / napierE - y0)
                    / ((cexcess.getD c none).getD 0 - y0)))
                - times.getD (nanargmaxQ cexcess) 0) / 3600)),
               some (1 / (((times.getD (c - 1) 0 + (times.getD c 0 - times.getD (c - 1) 0)
                  * ((((cexcess.getD (nanargmaxQ cexcess) none).getD 0) / napierE - y0)
                    / ((cexcess.getD c none).getD 0 - y0)))
                - times.getD (nanargmaxQ cexcess) 0) / 3600)),
               baseline, 0, none, [], []⟩

/-- Source function fit_co2_decay.  logQ and polyfitQ are abstract numeric
kernels standing for np.log and np.polyfit (returning (slope,
intercept)). -/
def fit_co2_decay (logQ : ℚ → ℚ) (polyfitQ : List ℚ → List ℚ → ℚ × ℚ)
    (times : List ℚ) (co2 : List (Option ℚ)) (baseline : ℚ)
    (method : CO2Method) : DecayFitResult :=
  match method with
  | CO2Method.time_constant_63 =>
      if countValidAbove co2 baseline < 2 then
        zeroResult baseline ["Insufficient points above baseline"]
      else if nanmaxQ (co2.map (Option.map (fun v => v - baseline))) ≤ 0 then
        zeroResult baseline ["No positive excess CO2 above baseline"]
      else
        tc63Core times (co2.map (Option.map (fun v => v - baseline))) baseline
  | CO2Method.two_point =>
      if countValidAbove co2 baseline < 3 then
        zeroResult baseline ["Insufficient points above baseline"]
      else
        mkFitResult ((abovePairs times co2 baseline).map (fun p => p.1))
          ((abovePairs times co2 baseline).map (fun p => logQ (p.2 - baseline)))
          ((toHours ((abovePairs times co2 baseline).map (fun p => p.1))).map
            (fun t =>
              ((abovePairs times co2 baseline).map
                  (fun p => logQ (p.2 - baseline))).headD 0
                - max ((((abovePairs times co2 baseline).map
                      (fun p => logQ (p.2 - baseline))).headD 0
                    - ((abovePairs times co2 baseline).map
                      (fun p => logQ (p.2 - baseline))).getLastD 0)
                  / ((toHours ((abovePairs times co2 baseline).map (fun p => p.1))).getLastD 0
                    - (toHours ((abovePairs times co2 baseline).map (fun p => p.1))).headD 0)) 0
                * t))
          baseline
          (max ((((abovePairs times co2 baseline).map
                (fun p => logQ (p.2 - baseline))).headD 0
              - ((abovePairs times co2 baseline).map
                (fun p => logQ (p.2 - baseline))).getLastD 0)
            / ((toHours ((abovePairs times co2 baseline).map (fun p => p.1))).getLastD 0
              - (toHours ((abovePairs times co2 baseline).map (fun p => p.1))).headD 0)) 0)
  | CO2Method.regression =>
      if countValidAbove co2 baseline < 3 then
        zeroResult baseline ["Insufficient points above baseline"]
      else
        mkFitResult ((abovePairs times co2 baseline).map (fun p => p.1))
          ((abovePairs times co2 baseline).map (fun p => logQ (p.2 - baseline)))
          ((toHours ((abovePairs times co2 baseline).map (fun p => p.1))).map
            (fun t =>
              (polyfitQ (toHours ((abovePairs times co2 baseline).map (fun p => p.1)))
                  ((abovePairs times co2 baseline).map (fun p => logQ (p.2 - baseline)))).2
                + (polyfitQ (toHours ((abovePairs times co2 baseline).map (fun p => p.1)))
                    ((abovePairs times co2 baseline).map (fun p => logQ (p.2 - baseline)))).1
                  * t))
          baseline
          (- (polyfitQ (toHours ((abovePairs times co2 baseline).map (fun p => p.1)))
              ((abovePairs times co2 baseline).map (fun p => logQ (p.2 - baseline)))).1)

inductive PNMethod
  | nonlinear
  | log_linear
deriving DecidableEq, Repr

/-- (time, value) pairs with a present value: valid = pn10.notna(). -/
def presentPairs (times : List ℚ) (pn10 : List (Option ℚ)) : List (ℚ × ℚ) :=
  (times.zip pn10).filterMap (fun tv => tv.2.map (fun v => (tv.1, v)))

/-- Elapsed hours of the present samples. -/
def pnHours (times : List ℚ) (pn10 : List (Option ℚ)) : List ℚ :=
  toHours ((presentPairs times pn10).map (fun p => p.1))

/-- Values of the present samples. -/
def pnValues (times : List ℚ) (pn10 : List (Option ℚ)) : List ℚ :=
  (presentPairs times pn10).map (fun p => p.2)

/-- The (hours, value) pairs the log_linear branch keeps:
y > baseline + 1e-9. -/
def pnLogAbove (times : List ℚ) (pn10 : List (Option ℚ)) (baseline : ℚ) :
    List (ℚ × ℚ) :=
  ((pnHours times pn10).zip (pnValues times pn10)).filter
    (fun p => decide (baseline + 1/1000000000 < p.2))

/-- The initial guess p0 = [a0, k0] of the nonlinear branch:
a0 = max(y[0] - baseline, 1e-6), k0 = 1. -/
def pnInitGuess (times : List ℚ) (pn10 : List (Option ℚ)) (baseline : ℚ) :
    ℚ × ℚ :=
  (max ((pnValues times pn10).headD 0 - baseline) (1/1000000), 1)

/-- Source function fit_pn_decay.  logQ, expQ and polyfitQ are abstract
kernels for np.log, np.exp and np.polyfit; curveFitQ stands for scipy
curve_fit on the model baseline + a exp(-k t) with arguments
(t_hours, y, baseline, p0), and none models the optimizer raising. -/
def fit_pn_decay (logQ expQ : ℚ → ℚ) (polyfitQ : List ℚ → List ℚ → ℚ × ℚ)
    (curveFitQ : List ℚ → List ℚ → ℚ → ℚ × ℚ → Option (ℚ × ℚ))
    (times : List ℚ) (pn10 : List (Option ℚ)) (baseline : ℚ)
    (method : PNMethod) : DecayFitResult :=
  if (presentPairs times pn10).length < 3 then
    zeroResult baseline ["Insufficient points"]
  else
    match method with
    | PNMethod.log_linear =>
        if (pnLogAbove times pn10 baseline).length < 3 then
          zeroResult baseline ["Insufficient points above baseline"]
        else
          mkFitResult ((presentPairs times pn10).map (fun p => p.1))
            (pnValues times pn10)
            ((pnHours times pn10).map (fun t =>
              baseline + expQ
                ((polyfitQ ((pnLogAbove times pn10 baseline).map (fun p => p.1))
                    ((pnLogAbove times pn10 baseline).map
                      (fun p => logQ (p.2 - baseline)))).2
                  + (polyfitQ ((pnLogAbove times pn10 baseline).map (fun p => p.1))
                      ((pnLogAbove times pn10 baseline).map
                        (fun p => logQ (p.2 - baseline)))).1 * t)))
            baseline
            (- (polyfitQ ((pnLogAbove times pn10 baseline).map (fun p => p.1))
                ((pnLogAbove times pn10 baseline).map
                  (fun p => logQ (p.2 - baseline)))).1)
    | PNMethod.nonlinear =>
        match curveFitQ (pnHours times pn10) (pnValues times pn10) baseline
            (pnInitGuess times pn10 baseline) with
        | none => zeroResult baseline ["Nonlinear fit failed"]
        | some ak =>
            mkFitResult ((presentPairs times pn10).map (fun p => p.1))
              (pnValues times pn10)
              ((pnHours times pn10).map (fun t =>
                baseline + ak.1 * expQ (- ak.2 * t)))
              baseline ak.2

/-- C5: every insufficient-data condition of fit_co2_decay and fit_pn_decay
(empty input, all-missing input, fewer than 2 or 3 usable points, no sample
above baseline, a failed nonlinear optimization) produces a structurally
complete DecayFitResult with a descriptive warning and an empty residual
series, for every numeric kernel; nothing is raised, the embedding being a
total function. -/
theorem decay_fit_degenerate_never_fatal
    (logQ expQ : ℚ → ℚ) (polyfitQ : List ℚ → List ℚ → ℚ × ℚ)
    (curveFitQ : List ℚ → List ℚ → ℚ → ℚ × ℚ → Option (ℚ × ℚ))
    (times : List ℚ) (co2 pn10 : List (Option ℚ)) (baseline : ℚ) :
    (countValidAbove co2 baseline < 2 →
      fit_co2_decay logQ polyfitQ times co2 baseline CO2Method.time_constant_63
        = zeroResult baseline ["Insufficient points above baseline"]) ∧
    (countValidAbove co2 baseline < 3 →
      fit_co2_decay logQ polyfitQ times co2 baseline CO2Method.regression
        = zeroResult baseline ["Insufficient points above baseline"] ∧
      fit_co2_decay logQ polyfitQ times co2 baseline CO2Method.two_point
        = zeroResult baseline ["Insufficient points above baseline"]) ∧
    ((presentPairs times pn10).length < 3 →
      ∀ m : PNMethod,
        fit_pn_decay logQ expQ polyfitQ curveFitQ times pn10 baseline m
          = zeroResult baseline ["Insufficient points"]) ∧
    (3 ≤ (presentPairs times pn10).length →
      (pnLogAbove times pn10 baseline).length < 3 →
      fit_pn_decay logQ expQ polyfitQ curveFitQ times pn10 baseline
          PNMethod.log_linear
        = zeroResult baseline ["Insufficient points above baseline"]) ∧
    (3 ≤ (presentPairs times pn10).length →
      curveFitQ (pnHours times pn10) (pnValues times pn10) baseline
          (pnInitGuess times pn10 baseline) = none →
      fit_pn_decay logQ expQ polyfitQ curveFitQ times pn10 baseline
          PNMethod.nonlinear
        = zeroResult baseline ["Nonlinear fit failed"]) ∧
    (∀ warnings : List String, (zeroResult baseline warnings).residuals = []
      ∧ (zeroResult baseline warnings).warnings = warnings) := by
  refine ⟨?_, ?_, ?_, ?_, ?_, fun _ => ⟨rfl, rfl⟩⟩
  · intro h
    show (if countValidAbove co2 baseline < 2 then
        zeroResult baseline ["Insufficient points above baseline"]
      else if nanmaxQ (co2.map (Option.map (fun v => v - baseline))) ≤ 0 then
        zeroResult baseline ["No positive excess CO2 above baseline"]
      else tc63Core times (co2.map (Option.map (fun v => v - baseline)))
        baseline) = _
    rw [if_pos h]
  · intro h
    constructor
    · simp only [fit_co2_decay]
      rw [if_pos h]
    · simp only [fit_co2_decay]
      rw [if_pos h]
  · intro h m
    unfold fit_pn_decay
    rw [if_pos h]
  · intro h3 habove
    unfold fit_pn_decay
    rw [if_neg (not_lt.mpr h3)]
    rw [if_pos habove]
  · intro h3 hcf
    unfold fit_pn_decay
    rw [if_neg (not_lt.mpr h3)]
    split
    · next heq => exact PNMethod.noConfusion heq
    · split
      · rfl
      · next ak heq =>
          rw [hcf] at heq
          exact Option.noConfusion heq

/-- Witness for the C5 theorem: empty CO2 input, an all-missing CO2 column,
empty particle input, three particle samples none of which exceeds baseline,
and a failing optimizer on three good samples. -/
theorem decay_fit_degenerate_never_fatal_witness :
    fit_co2_decay (fun x => x) (fun _ _ => (0, 0)) [] [] 0
        CO2Method.time_constant_63
      = zeroResult 0 ["Insufficient points above baseline"] ∧
    fit_co2_decay (fun x => x) (fun _ _ => (0, 0)) [0] [none] 0
        CO2Method.regression
      = zeroResult 0 ["Insufficient points above baseline"] ∧
    fit_pn_decay (fun x => x) (fun x => x) (fun _ _ => (0, 0))
        (fun _ _ _ _ => none) [] [] 0 PNMethod.nonlinear
      = zeroResult 0 ["Insufficient points"] ∧
    fit_pn_decay (fun x => x) (fun x => x) (fun _ _ => (0, 0))
        (fun _ _ _ _ => none) [0, 1, 2] [some 0, some 0, some 0] 0
        PNMethod.log_linear
      = zeroResult 0 ["Insufficient points above baseline"] ∧
    fit_pn_decay (fun x => x) (fun x => x) (fun _ _ => (0, 0))
        (fun _ _ _ _ => none) [0, 1, 2] [some 1, some 1, some 1] 0
        PNMethod.nonlinear
      = zeroResult 0 ["Nonlinear fit failed"] := by
  have h1 := decay_fit_degenerate_never_fatal (fun x => x) (fun x => x)
    (fun _ _ => (0, 0)) (fun _ _ _ _ => none) [] [] [] 0
  have h2 := decay_fit_degenerate_never_fatal (fun x => x) (fun x => x)
    (fun _ _ => (0, 0)) (fun _ _ _ _ => none) [0] [none] [] 0
  have h3 := decay_fit_degenerate_never_fatal (fun x => x) (fun x => x)
    (fun _ _ => (0, 0)) (fun _ _ _ _ => none) [0, 1, 2] []
    [some 0, some 0, some 0] 0
  have h4 := decay_fit_degenerate_never_fatal (fun x => x) (fun x => x)
    (fun _ _ => (0, 0)) (fun _ _ _ _ => none) [0, 1, 2] []
    [some 1, some 1, some 1] 0
  refine ⟨h1.1 (by norm_num [countValidAbove]),
    (h2.2.1 (by norm_num [countValidAbove])).1,
    h1.2.2.1 (by norm_num [presentPairs]) PNMethod.nonlinear,
    h3.2.2.2.1 ?_ ?_, h4.2.2.2.2.1 ?_ rfl⟩
  · norm_num [presentPairs, List.zip, List.zipWith, List.filterMap]
  · norm_num [pnLogAbove, pnHours, pnValues, presentPairs, toHours,
      List.zip, List.zipWith, List.filterMap, List.filter]
  · norm_num [presentPairs, List.zip, List.zipWith, List.filterMap]

/-- C6: for method time_constant_63, fit_co2_decay maps two samples whose
second excess equals peak/e to ACH = k = 1/(elapsed hours) exactly, with
R squared 0 and empty warnings and residuals (the general mechanism being
peak location, first subsequent sample with excess at most peak/e, linear
interpolation of the crossing, k = 1/tau); the method always reports
R squared 0; when the 1/e threshold is never reached it returns the zero
result with the warning about the 63 percent threshold; and when no sample
exceeds the baseline it returns the zero result with a descriptive
warning. -/
theorem fit_co2_tc63_spec (logQ : ℚ → ℚ) (polyfitQ : List ℚ → List ℚ → ℚ × ℚ) :
    (∀ t0 t1 baseline peak : ℚ, 0 < peak → t0 < t1 →
      fit_co2_decay logQ polyfitQ [t0, t1]
          [some (baseline + peak), some (baseline + peak / napierE)] baseline
          CO2Method.time_constant_63
        = ⟨some (3600 / (t1 - t0)), some (3600 / (t1 - t0)), baseline, 0,
           none, [], []⟩) ∧
    (∀ (times : List ℚ) (co2 : List (Option ℚ)) (baseline : ℚ),
      (fit_co2_decay logQ polyfitQ times co2 baseline
        CO2Method.time_constant_63).r2 = 0) ∧
    (∀ (times : List ℚ) (co2 : List (Option ℚ)) (baseline : ℚ),
      2 ≤ countValidAbove co2 baseline →
      0 < nanmaxQ (co2.map (Option.map (fun v => v - baseline))) →
      findCrossing (co2.map (Option.map (fun v => v - baseline)))
          (nanargmaxQ (co2.map (Option.map (fun v => v - baseline))) + 1)
          ((((co2.map (Option.map (fun v => v - baseline))).getD
              (nanargmaxQ (co2.map (Option.map (fun v => v - baseline))))
              none).getD 0) / napierE) = none →
      fit_co2_decay logQ polyfitQ times co2 baseline CO2Method.time_constant_63
        = zeroResult baseline ["Did not reach 63% decay threshold"]) ∧
    (∀ (times : List ℚ) (co2 : List (Option ℚ)) (baseline : ℚ),
      countValidAbove co2 baseline = 0 →
      fit_co2_decay logQ polyfitQ times co2 baseline CO2Method.time_constant_63
        = zeroResult baseline ["Insufficient points above baseline"]) := by
  refine ⟨?_, ?_, ?_, ?_⟩
  · intro t0 t1 baseline peak hp ht
    have hE1 : (1:ℚ) < napierE := by norm_num [napierE]
    have hE0 : (0:ℚ) < napierE := by linarith
    have hpe : 0 < peak / napierE := div_pos hp hE0
    have hcount : countValidAbove
        [some (baseline + peak), some (baseline + peak / napierE)] baseline
        = 2 := by
      simp [countValidAbove, List.countP_cons,
        show baseline < baseline + peak by linarith,
        show baseline < baseline + peak / napierE by linarith]
    have hexc : ([some (baseline + peak), some (baseline + peak / napierE)] :
        List (Option ℚ)).map (Option.map (fun v => v - baseline))
        = [some peak, some (peak / napierE)] := by
      simp
    have hmax : nanmaxQ [some peak, some (peak / napierE)] = peak := by
      simp [nanmaxQ, List.filterMap]
      exact div_le_self hp.le hE1.le
    have hidx : nanargmaxQ [some peak, some (peak / napierE)] = 0 := by
      simp [nanargmaxQ, hmax, List.findIdx, List.findIdx.go]
    have hcross : findCrossing [some peak, some (peak / napierE)] 1
        (peak / napierE) = some 1 := by
      simp [findCrossing, List.range_succ, List.filter]
    have hneq : peak / napierE ≠ peak := by
      intro heq
      rw [div_eq_iff (ne_of_gt hE0)] at heq
      have h1E : (1:ℚ) = napierE :=
        mul_left_cancel₀ (ne_of_gt hp)
          (by linarith [heq] : peak * 1 = peak * napierE)
      norm_num [napierE] at h1E
    have hne2 : peak / napierE - peak ≠ 0 := sub_ne_zero_of_ne hneq
    simp only [fit_co2_decay]
    rw [hcount]
    rw [if_neg (by norm_num)]
    rw [hexc, hmax]
    rw [if_neg (not_le.mpr hp)]
    unfold tc63Core
    rw [hidx]
    simp only [List.getD_cons_zero, Option.getD_some]
    rw [hcross]
    simp only [Nat.sub_self, List.getD_cons_zero, List.getD_cons_succ,
      Option.getD_some]
    rw [if_neg hneq]
    rw [div_self hne2]
    have harith : t0 + (t1 - t0) * 1 - t0 = t1 - t0 := by ring
    have hpos : ¬ (t0 + (t1 - t0) * 1 - t0) / 3600 ≤ 0 := by
      rw [harith]
      push_neg
      exact div_pos (by linarith) (by norm_num)
    rw [if_neg hpos]
    rw [harith]
    rw [one_div_div]
  · intro times co2 baseline
    simp only [fit_co2_decay]
    split_ifs <;> try rfl
    unfold tc63Core
    split
    · rfl
    · split
      · rfl
      · split_ifs <;> rfl
  · intro times co2 baseline h2 hmax hcross
    simp only [fit_co2_decay]
    rw [if_neg (not_lt.mpr h2), if_neg (not_le.mpr hmax)]
    unfold tc63Core
    split
    · rfl
    · next c heq =>
        rw [hcross] at heq
        exact Option.noConfusion heq
  · intro times co2 baseline h0
    simp only [fit_co2_decay]
    rw [if_pos (by omega)]

/-- Witness for the C6 theorem: the 1/e pair over one hour gives ACH 1, a
pair never reaching the threshold gives the zero result with its warning,
and a sample below baseline gives the insufficient-points zero result. -/
theorem fit_co2_tc63_spec_witness :
    fit_co2_decay (fun x => x) (fun _ _ => (0, 0)) [0, 3600]
        [some (400 + 1000), some (400 + 1000 / napierE)] 400
        CO2Method.time_constant_63
      = ⟨some (3600 / (3600 - 0)), some (3600 / (3600 - 0)), 400, 0, none,
         [], []⟩ ∧
    fit_co2_decay (fun x => x) (fun _ _ => (0, 0)) [0, 60]
        [some 500, some 450] 0 CO2Method.time_constant_63
      = zeroResult 0 ["Did not reach 63% decay threshold"] ∧
    fit_co2_decay (fun x => x) (fun _ _ => (0, 0)) [0] [some 300] 400
        CO2Method.time_constant_63
      = zeroResult 400 ["Insufficient points above baseline"] := by
  refine ⟨(fit_co2_tc63_spec (fun x => x) (fun _ _ => (0, 0))).1 0 3600 400
    1000 (by norm_num) (by norm_num), ?_, ?_⟩
  · apply (fit_co2_tc63_spec (fun x => x) (fun _ _ => (0, 0))).2.2.1
    · norm_num [countValidAbove, List.countP_cons]
    · norm_num [nanmaxQ, List.filterMap]
    · have hm : nanmaxQ (List.map (Option.map fun v => v - 0)
          [some 500, some 450]) = 500 := by
        norm_num [nanmaxQ, List.filterMap]
      have hi : nanargmaxQ (List.map (Option.map fun v => v - 0)
          [some 500, some 450]) = 0 := by
        norm_num [nanargmaxQ, List.findIdx, List.findIdx.go, nanmaxQ,
          List.filterMap]
      rw [hi]
      norm_num [findCrossing, List.range_succ, List.filter, napierE]
  · apply (fit_co2_tc63_spec (fun x => x) (fun _ _ => (0, 0))).2.2.2
    norm_num [countValidAbove, List.countP_cons]
